import Mathlib

/-!
Shallow embedding of the retrieval core of `src/rag_system.py` (class
`RAGSystem`): chunker, cache-key derivation, cache load/save, similarity
search and the query path.  Python strings are modelled as lists of
characters (code points), floating point embedding vectors as exact
rationals (or reals where a square root is required), and Python
exceptions that the source catches as explicit `Option`/sum types.
-/

namespace RAG

/-- A retained text chunk, mirroring the dict built in
`RAGSystem._chunk_text` (src/rag_system.py, lines 100-118): the stripped
window text, the source filename, and a `chunk_id` equal to the number of
chunks retained so far by the same call. -/
structure Chunk where
  text : List Char
  source : String
  chunk_id : Nat
deriving DecidableEq, Repr

/-- Python `str.strip()` on a list of characters: drop leading and trailing
whitespace. -/
def strip (l : List Char) : List Char :=
  ((l.dropWhile Char.isWhitespace).reverse.dropWhile Char.isWhitespace).reverse

/-- The window start positions of the loop
`for i in range(0, len(text), chunk_size - chunk_overlap)`:
the multiples of `step` strictly below `n`. -/
def windowStarts (step n : Nat) : List Nat :=
  (List.range ((n + step - 1) / step)).map (fun j => j * step)

/-- The raw window at start position `i`: `text[i : i + chunk_size]`. -/
def window (chunk_size : Nat) (text : List Char) (i : Nat) : List Char :=
  (text.drop i).take chunk_size

/-- The body of the loop in `_chunk_text`: skip the window at `i` when its
stripped text is shorter than 50 characters
(`if len(chunk_text.strip()) < 50: continue`), otherwise append a chunk
whose id is the current length of the accumulator
(`'chunk_id': len(chunks)`). -/
def chunkStep (chunk_size : Nat) (text : List Char) (filename : String)
    (chunks : List Chunk) (i : Nat) : List Chunk :=
  if (strip (window chunk_size text i)).length < 50 then chunks
  else chunks ++ [{ text := strip (window chunk_size text i),
                    source := filename, chunk_id := chunks.length }]

/-- `RAGSystem._chunk_text` (src/rag_system.py, lines 100-118): slide a
window of `chunk_size` characters advancing by `chunk_size - chunk_overlap`
characters per step, skipping windows whose stripped text is shorter than
50 characters. -/
def chunkText (chunk_size chunk_overlap : Nat) (text : List Char)
    (filename : String) : List Chunk :=
  (windowStarts (chunk_size - chunk_overlap) text.length).foldl
    (chunkStep chunk_size text filename) []

/-- The Bool form of the retention test of `_chunk_text`: the window at
`i` is kept when its stripped length is not below 50. -/
def keepWindow (chunk_size : Nat) (text : List Char) (i : Nat) : Bool :=
  !decide ((strip (window chunk_size text i)).length < 50)

/-- The start positions of the windows that `_chunk_text` retains. -/
def retainedStarts (chunk_size chunk_overlap : Nat) (text : List Char) :
    List Nat :=
  (windowStarts (chunk_size - chunk_overlap) text.length).filter
    (keepWindow chunk_size text)

/-- The chunk-accumulation loop of `process_documents`
(src/rag_system.py, lines 193-211): for each file, skip it when the
stripped extracted text is empty, otherwise extend `all_chunks` with that
file's `_chunk_text` result.  Text extraction itself is external
(`PyPDF2`), so a file is modelled as its basename together with its
extracted text; the chunk size and overlap are the constructor defaults
500 and 50. -/
def processDocumentsChunks (files : List (String × List Char)) : List Chunk :=
  files.foldl
    (fun all_chunks file =>
      if strip file.2 = [] then all_chunks
      else all_chunks ++ chunkText 500 50 file.2 file.1)
    []

/-- Chunk ids are sequential: the list of `chunk_id` values is
`[0, 1, ..., length - 1]`. -/
def seqIds (L : List Chunk) : Prop :=
  L.map Chunk.chunk_id = List.range L.length

lemma chunkFold_map_chunk_id (cs : Nat) (text : List Char) (f : String) :
    ∀ (l : List Nat) (acc : List Chunk),
      acc.map Chunk.chunk_id = List.range acc.length →
      (l.foldl (chunkStep cs text f) acc).map Chunk.chunk_id
        = List.range (l.foldl (chunkStep cs text f) acc).length := by
  intro l
  induction l with
  | nil => intro acc h; simpa using h
  | cons i l ih =>
    intro acc h
    simp only [List.foldl_cons]
    by_cases hkeep : (strip (window cs text i)).length < 50
    · rw [show chunkStep cs text f acc i = acc from by simp [chunkStep, hkeep]]
      exact ih acc h
    · refine ih _ ?_
      simp only [chunkStep, hkeep, if_false]
      rw [List.map_append, List.length_append, h]
      simp [List.range_succ]

lemma chunkFold_length (cs : Nat) (text : List Char) (f : String) :
    ∀ (l : List Nat) (acc : List Chunk),
      (l.foldl (chunkStep cs text f) acc).length
        = acc.length + l.countP (keepWindow cs text) := by
  intro l
  induction l with
  | nil => intro acc; simp
  | cons i l ih =>
    intro acc
    simp only [List.foldl_cons, List.countP_cons]
    by_cases hkeep : (strip (window cs text i)).length < 50
    · rw [show chunkStep cs text f acc i = acc from by simp [chunkStep, hkeep]]
      rw [ih acc]
      simp [keepWindow, hkeep]
    · rw [show chunkStep cs text f acc i
            = acc ++ [{ text := strip (window cs text i), source := f,
                        chunk_id := acc.length }] from by simp [chunkStep, hkeep]]
      rw [ih]
      simp [keepWindow, hkeep]
      omega

lemma chunkFold_map_text (cs : Nat) (text : List Char) (f : String) :
    ∀ (l : List Nat) (acc : List Chunk),
      (l.foldl (chunkStep cs text f) acc).map Chunk.text
        = acc.map Chunk.text
          ++ (l.filter (keepWindow cs text)).map
               (fun i => strip (window cs text i)) := by
  intro l
  induction l with
  | nil => intro acc; simp
  | cons i l ih =>
    intro acc
    simp only [List.foldl_cons, List.filter_cons]
    by_cases hkeep : (strip (window cs text i)).length < 50
    · rw [show chunkStep cs text f acc i = acc from by simp [chunkStep, hkeep]]
      rw [ih acc]
      simp [keepWindow, hkeep]
    · rw [show chunkStep cs text f acc i
            = acc ++ [{ text := strip (window cs text i), source := f,
                        chunk_id := acc.length }] from by simp [chunkStep, hkeep]]
      rw [ih]
      simp [keepWindow, hkeep]

/-- Within one `_chunk_text` call the retained chunks carry the sequential
ids `0, 1, ...`. -/
lemma chunkText_seqIds (cs co : Nat) (text : List Char) (f : String) :
    seqIds (chunkText cs co text f) :=
  chunkFold_map_chunk_id cs text f _ [] (by simp)

/-- The number of retained chunks is the number of retained windows. -/
lemma chunkText_length (cs co : Nat) (text : List Char) (f : String) :
    (chunkText cs co text f).length
      = (windowStarts (cs - co) text.length).countP (keepWindow cs text) := by
  simpa using chunkFold_length cs text f (windowStarts (cs - co) text.length) []

/-- The texts of the retained chunks are the stripped windows at the
retained start positions, in order. -/
lemma chunkText_map_text (cs co : Nat) (text : List Char) (f : String) :
    (chunkText cs co text f).map Chunk.text
      = (retainedStarts cs co text).map (fun i => strip (window cs text i)) := by
  have h := chunkFold_map_text cs text f (windowStarts (cs - co) text.length) []
  simpa [chunkText, retainedStarts, keepWindow] using h

/-- The overlap invariant stated by the spec, read on window start
positions: for adjacent retained chunks `i` and `i + 1`, the last
`chunk_overlap` character positions of window `i` — which begin at
`start i + (chunk_size - chunk_overlap)` — are exactly the first
`chunk_overlap` character positions of window `i + 1`, i.e. the adjacent
retained starts differ by `chunk_size - chunk_overlap`. -/
def overlapHolds (chunk_size chunk_overlap : Nat) (text : List Char) : Prop :=
  ∀ i < (retainedStarts chunk_size chunk_overlap text).length - 1,
    (retainedStarts chunk_size chunk_overlap text).getD (i + 1) 0
      = (retainedStarts chunk_size chunk_overlap text).getD i 0
        + (chunk_size - chunk_overlap)

/-! ### MD5, as used by `hashlib.md5(...).hexdigest()` in `_get_cache_path`.
Machine words are `Nat` reduced modulo `2 ^ 32`. -/

/-- Reduce modulo `2 ^ 32`. -/
def mod32 (n : Nat) : Nat := n % 4294967296

/-- 32-bit left rotation of a word below `2 ^ 32`. -/
def rotl32 (x s : Nat) : Nat := mod32 (x <<< s) ||| (x >>> (32 - s))

/-- 32-bit complement of a word below `2 ^ 32`. -/
def not32 (x : Nat) : Nat := 4294967295 - x

/-- The 64 MD5 sine-derived constants. -/
def md5K : List Nat :=
  [0xd76aa478, 0xe8c7b756, 0x242070db, 0xc1bdceee,
   0xf57c0faf, 0x4787c62a, 0xa8304613, 0xfd469501,
   0x698098d8, 0x8b44f7af, 0xffff5bb1, 0x895cd7be,
   0x6b901122, 0xfd987193, 0xa679438e, 0x49b40821,
   0xf61e2562, 0xc040b340, 0x265e5a51, 0xe9b6c7aa,
   0xd62f105d, 0x02441453, 0xd8a1e681, 0xe7d3fbc8,
   0x21e1cde6, 0xc33707d6, 0xf4d50d87, 0x455a14ed,
   0xa9e3e905, 0xfcefa3f8, 0x676f02d9, 0x8d2a4c8a,
   0xfffa3942, 0x8771f681, 0x6d9d6122, 0xfde5380c,
   0xa4beea44, 0x4bdecfa9, 0xf6bb4b60, 0xbebfbc70,
   0x289b7ec6, 0xeaa127fa, 0xd4ef3085, 0x04881d05,
   0xd9d4d039, 0xe6db99e5, 0x1fa27cf8, 0xc4ac5665,
   0xf4292244, 0x432aff97, 0xab9423a7, 0xfc93a039,
   0x655b59c3, 0x8f0ccc92, 0xffeff47d, 0x85845dd1,
   0x6fa87e4f, 0xfe2ce6e0, 0xa3014314, 0x4e0811a1,
   0xf7537e82, 0xbd3af235, 0x2ad7d2bb, 0xeb86d391]

/-- The 64 MD5 per-round rotation amounts. -/
def md5S : List Nat :=
  [7, 12, 17, 22, 7, 12, 17, 22, 7, 12, 17, 22, 7, 12, 17, 22,
   5, 9, 14, 20, 5, 9, 14, 20, 5, 9, 14, 20, 5, 9, 14, 20,
   4, 11, 16, 23, 4, 11, 16, 23, 4, 11, 16, 23, 4, 11, 16, 23,
   6, 10, 15, 21, 6, 10, 15, 21, 6, 10, 15, 21, 6, 10, 15, 21]

/-- A little-endian 32-bit word from four bytes. -/
def leWord (bytes : List Nat) : Nat :=
  bytes.getD 0 0 + 256 * bytes.getD 1 0 + 65536 * bytes.getD 2 0
    + 16777216 * bytes.getD 3 0

/-- MD5 padding: a `0x80` byte, zeros up to 56 modulo 64, then the bit
length as a 64-bit little-endian integer. -/
def md5Pad (msg : List Nat) : List Nat :=
  let zeros := (120 - ((msg.length + 1) % 64)) % 64
  let bitlen := msg.length * 8
  msg ++ [128] ++ List.replicate zeros 0
      ++ (List.range 8).map (fun i => (bitlen >>> (8 * i)) % 256)

/-- Split a padded message into 64-byte blocks. -/
def md5Blocks (padded : List Nat) : List (List Nat) :=
  (List.range (padded.length / 64)).map
    (fun b => (padded.drop (64 * b)).take 64)

/-- The MD5 round function for round `i`. -/
def md5F (i b c d : Nat) : Nat :=
  if i < 16 then (b &&& c) ||| (not32 b &&& d)
  else if i < 32 then (d &&& b) ||| (not32 d &&& c)
  else if i < 48 then b ^^^ c ^^^ d
  else c ^^^ (b ||| not32 d)

/-- The MD5 message-word index for round `i`. -/
def md5G (i : Nat) : Nat :=
  if i < 16 then i
  else if i < 32 then (5 * i + 1) % 16
  else if i < 48 then (3 * i + 5) % 16
  else (7 * i) % 16

/-- One MD5 round on the state `(a, b, c, d)`. -/
def md5Round (M : Nat → Nat) (st : Nat × Nat × Nat × Nat) (i : Nat) :
    Nat × Nat × Nat × Nat :=
  let f := mod32 (md5F i st.2.1 st.2.2.1 st.2.2.2 + st.1
                    + md5K.getD i 0 + M (md5G i))
  (st.2.2.2, mod32 (st.2.1 + rotl32 f (md5S.getD i 0)), st.2.1, st.2.2.1)

/-- Process one 64-byte block: run the 64 rounds and add the result to the
incoming state, wordwise modulo `2 ^ 32`. -/
def md5Block (st : Nat × Nat × Nat × Nat) (block : List Nat) :
    Nat × Nat × Nat × Nat :=
  let M : Nat → Nat := fun g => leWord ((block.drop (4 * g)).take 4)
  let r := (List.range 64).foldl (md5Round M) st
  (mod32 (st.1 + r.1), mod32 (st.2.1 + r.2.1),
   mod32 (st.2.2.1 + r.2.2.1), mod32 (st.2.2.2 + r.2.2.2))

/-- A lowercase hexadecimal digit. -/
def hexChar (n : Nat) : Char :=
  if n < 10 then Char.ofNat (48 + n) else Char.ofNat (87 + n)

/-- Two lowercase hex digits of a byte. -/
def byteHex (b : Nat) : List Char := [hexChar (b / 16), hexChar (b % 16)]

/-- The four bytes of a 32-bit word, little-endian. -/
def wordLEBytes (w : Nat) : List Nat :=
  (List.range 4).map (fun i => (w >>> (8 * i)) % 256)

/-- The full MD5 hex digest of a byte sequence. -/
def md5hex (msg : List Nat) : String :=
  let st := (md5Blocks (md5Pad msg)).foldl md5Block
    (0x67452301, 0xefcdab89, 0x98badcfe, 0x10325476)
  String.mk
    ((([st.1, st.2.1, st.2.2.1, st.2.2.2].map wordLEBytes).flatten.map
        byteHex).flatten)

/-- Python `str.encode()` (UTF-8); the modelled inputs are ASCII, where
UTF-8 bytes coincide with code points. -/
def strBytes (s : String) : List Nat := s.data.map Char.toNat

/-! ### Cache key derivation (`_get_cache_path`, src/rag_system.py,
lines 120-132). -/

/-- The `f"{pdf_file}:{mtime}"` entries of `_get_cache_path`: the
filesystem is modelled as an association list from existing paths to
`str(os.path.getmtime(path))`; paths that do not exist are skipped
(`if os.path.exists(pdf_file)`). -/
def filesInfo (fs : List (String × String)) (pdf_files : List String) :
    List String :=
  pdf_files.filterMap (fun p => (fs.lookup p).map (fun m => p ++ ":" ++ m))

/-- `RAGSystem._get_cache_path`: join the `path:mtime` entries with `"|"`,
MD5-hash the joined string, and place `rag_cache_<digest>.pkl` in the cache
folder (`os.path.join` on a POSIX path). -/
def getCachePath (fs : List (String × String)) (cache_folder : String)
    (pdf_files : List String) : String :=
  cache_folder ++ "/rag_cache_"
    ++ md5hex (strBytes (String.intercalate "|" (filesInfo fs pdf_files)))
    ++ ".pkl"

/-! ### Cache load and save (`_load_from_cache`, src/rag_system.py,
lines 134-157; `_save_to_cache`, lines 159-173). -/

/-- The payload of a cache entry as `_save_to_cache` writes it: the
`chunks`, `metadata` and `embeddings` fields of the pickled dict.
Embedding vectors are modelled as lists of rationals; `embeddings` is an
`Option` because the stored value may be `None`. -/
structure CacheData where
  chunks : List (List Char)
  metadata : List Chunk
  embeddings : Option (List (List ℚ))
deriving DecidableEq, Repr

/-- What `_load_from_cache` finds at the cache path: no file
(`os.path.exists` is false), a file whose contents fail to deserialize
(any exception from `pickle.load` or the subsequent field lookups, caught
by the bare `except`), or a deserialized entry. -/
inductive CacheFile where
  | absent
  | corrupt
  | entry (data : CacheData)
deriving DecidableEq

/-- The in-memory state `_load_from_cache` installs on success:
`self.chunks`, `self.chunk_metadata`, and the vector store rebuilt from
the stored embeddings when they are not `None`. -/
structure LoadedState where
  chunks : List (List Char)
  chunk_metadata : List Chunk
  vector_store : Option (List (List ℚ))
deriving DecidableEq, Repr

/-- `RAGSystem._load_from_cache`: `none` models `return False` (missing
file, or any exception caught and logged); `some` models `return True`
together with the state the method installs.  The method performs no
structural check relating the lengths of `chunks` and `embeddings`. -/
def loadFromCache : CacheFile → Option LoadedState
  | .absent => none
  | .corrupt => none
  | .entry d => some { chunks := d.chunks, chunk_metadata := d.metadata,
                       vector_store := d.embeddings }

/-! ### Embedding normalization and caching in `process_documents`
(src/rag_system.py, lines 224-233).  The embedding vectors are floating
point arrays; they are modelled over the reals because the L2 norm takes a
square root. -/

/-- `np.linalg.norm(v)` for one row: the L2 norm. -/
noncomputable def l2norm (v : List ℝ) : ℝ :=
  Real.sqrt ((v.map (fun x => x * x)).sum)

/-- `embeddings / np.linalg.norm(embeddings, axis=1, keepdims=True)`:
divide every row by its own L2 norm. -/
noncomputable def normalizeRows (e : List (List ℝ)) : List (List ℝ) :=
  e.map (fun v => v.map (fun x => x / l2norm v))

/-- The outcome of the index-building tail of `process_documents`: what
the FAISS index receives and what `_save_to_cache` persists. -/
structure BuildResult where
  vector_store : List (List ℝ)
  cached_embeddings : List (List ℝ)

/-- Lines 224-233 of `process_documents`: the embedding array is
reassigned to its row-normalized form
(`embeddings = embeddings / np.linalg.norm(...)`), added to the FAISS
index, and the same reassigned array is what
`_save_to_cache(cache_path, embeddings)` persists. -/
noncomputable def buildAndCache (raw : List (List ℝ)) : BuildResult :=
  let embeddings := normalizeRows raw
  { vector_store := embeddings, cached_embeddings := embeddings }

/-! ### Similarity search and the query path
(`_retrieve_relevant_chunks`, src/rag_system.py, lines 241-263;
`query`, lines 265-312). -/

/-- Inner product of two vectors. -/
def dot (q v : List ℚ) : ℚ := (List.zipWith (· * ·) q v).sum

/-- The ordering used to rank search hits: higher score first, ties by
lower stored position. -/
def searchLE (a b : Nat × ℚ) : Bool :=
  decide (b.2 < a.2) || (decide (a.2 = b.2) && decide (a.1 ≤ b.1))

/-- Modelled from the spec: `IndexFlatIP.search` belongs to the external
FAISS library; spec section 4.4 specifies it as computing the inner
product of the query vector against every stored vector and returning the
top `k` `(position, score)` pairs by descending score, ties broken by
lower position index, with `k` clamped to the stored count. -/
def searchIndex (stored : List (List ℚ)) (q : List ℚ) (k : Nat) :
    List (Nat × ℚ) :=
  (((List.range stored.length).map
      (fun i => (i, dot q (stored.getD i [])))).mergeSort searchLE).take k

/-- A retrieved chunk with its score, as assembled in
`_retrieve_relevant_chunks` (a copy of the metadata dict plus a
`similarity_score` field). -/
structure ScoredChunk where
  chunk : Chunk
  similarity_score : ℚ
deriving DecidableEq, Repr

/-- `RAGSystem._retrieve_relevant_chunks`: embed and normalize the query
(the sentence-transformers model is external, so the normalized query
embedding arrives as an input; `none` models the exception path — for
example `self.embeddings_model` or `self.vector_store` still being `None`
before any ingest — in which case the bare `except` returns `[]`), search
the vector store with `self.top_k`, and keep the hits whose index is a
valid position of `chunk_metadata`. -/
def retrieveRelevantChunks (chunk_metadata : List Chunk)
    (vector_store : Option (List (List ℚ))) (nq : Option (List ℚ))
    (top_k : Nat) : List ScoredChunk :=
  match nq, vector_store with
  | some q, some stored =>
    (searchIndex stored q top_k).filterMap
      (fun p => if h : p.1 < chunk_metadata.length
        then some { chunk := chunk_metadata.get ⟨p.1, h⟩,
                    similarity_score := p.2 }
        else none)
  | _, _ => []

/-- The fixed response of `query` when retrieval yields nothing. -/
def noInfoMsg : String := "❌ No relevant information found in the documents."

/-- The `"From {source}:\n{text}"` parts joined by blank lines. -/
def buildContext (chunks : List ScoredChunk) : String :=
  String.intercalate "\n\n"
    (chunks.map (fun c =>
      "From " ++ c.chunk.source ++ ":\n" ++ String.mk c.chunk.text))

/-- The prompt composed by `query`. -/
def buildPrompt (chunks : List ScoredChunk) (question : String) : String :=
  "Based on the following document excerpts, please answer the question thoroughly and accurately.\n\nCONTEXT:\n"
    ++ buildContext chunks
    ++ "\n\nQUESTION: " ++ question
    ++ "\n\nPlease provide a detailed answer based solely on the information in the provided context. If the context doesn\x27t contain enough information to answer the question completely, please mention what additional information would be helpful.\n\nANSWER:"

/-- The deduplicated source names appended to the answer.  Python collects
them in a `set`, whose iteration order is unspecified; first-occurrence
order is taken as the model. -/
def querySources (chunks : List ScoredChunk) : String :=
  String.intercalate ", " ((chunks.map (fun c => c.chunk.source)).dedup)

/-- `RAGSystem.query`: retrieve with `self.top_k = 3`; when nothing comes
back, return the fixed message without touching the generation backend.
`ollama.chat` is an external collaborator modelled as a function that
either returns the answer content or raises (`Except.error`); the
surrounding `try` converts any raised error into the
`"❌ Error generating answer: ..."` string. -/
def queryAnswer (chunk_metadata : List Chunk)
    (vector_store : Option (List (List ℚ))) (nq : Option (List ℚ))
    (gen : String → Except String String) (question : String) : String :=
  let relevant_chunks := retrieveRelevantChunks chunk_metadata vector_store nq 3
  if relevant_chunks = [] then noInfoMsg
  else
    match gen (buildPrompt relevant_chunks question) with
    | .ok answer => answer ++ "\n\n📚 Sources: " ++ querySources relevant_chunks
    | .error e => "❌ Error generating answer: " ++ e

/-! ## Theorems -/

/-- `filesInfo` distributes over list append. -/
lemma filesInfo_append (fs : List (String × String)) (L L' : List String) :
    filesInfo fs (L ++ L') = filesInfo fs L ++ filesInfo fs L' := by
  simp [filesInfo]

/-- The derived cache path only depends on the `path:mtime` entries. -/
lemma getCachePath_congr (fs fs' : List (String × String))
    (folder : String) (L L' : List String)
    (h : filesInfo fs L = filesInfo fs' L') :
    getCachePath fs folder L = getCachePath fs' folder L' := by
  simp [getCachePath, h]

/-- C10: cache key derivation silently skips file paths that do not exist
on disk — appending a nonexistent path to the file list leaves the derived
cache path unchanged, so a document set with a since-deleted file collides
with the reduced set's cache entry. -/
theorem c10_missing_file_skipped_in_key
    (fs : List (String × String)) (folder : String) (L : List String)
    (p : String) (h : fs.lookup p = none) :
    getCachePath fs folder (L ++ [p]) = getCachePath fs folder L := by
  refine getCachePath_congr fs fs folder _ _ ?_
  simp [filesInfo_append, filesInfo, h]

/-- Witness for C10 at a concrete filesystem: with only `"a"` existing,
the sets `["a", "b"]` and `["a"]` derive the same cache path. -/
theorem c10_witness :
    getCachePath [("a", "1")] "cache" (["a"] ++ ["b"])
      = getCachePath [("a", "1")] "cache" ["a"] :=
  c10_missing_file_skipped_in_key [("a", "1")] "cache" ["a"] "b" (by decide)

set_option maxRecDepth 20000 in
/-- C4 (failing input): two document sets carrying the same set of
`(path, mtime)` pairs but listed in different orders derive different
cache keys, because `_get_cache_path` hashes the entries in input order
without sorting. -/
theorem c4_same_set_different_keys :
    ([("a", "1"), ("b", "2")] : Multiset (String × String))
        = ([("b", "2"), ("a", "1")] : List (String × String))
    ∧ getCachePath [("a", "1"), ("b", "2")] "cache" ["a", "b"]
        ≠ getCachePath [("a", "1"), ("b", "2")] "cache" ["b", "a"] := by
  constructor
  · decide
  · decide

/-- C1 (counterexample): a cache entry whose chunk count (1) differs from
its embedding count (2) is not rejected — `_load_from_cache` loads it and
reports success. -/
theorem c1_counterexample :
    loadFromCache (.entry { chunks := [['x']],
                            metadata := [{ text := ['x'], source := "a.pdf",
                                           chunk_id := 0 }],
                            embeddings := some [[1], [2]] })
      = some { chunks := [['x']],
               chunk_metadata := [{ text := ['x'], source := "a.pdf",
                                    chunk_id := 0 }],
               vector_store := some [[1], [2]] }
    ∧ ([['x']] : List (List Char)).length ≠ ([[1], [2]] : List (List ℚ)).length :=
  ⟨rfl, by decide⟩

/-- C1 (amended): `_load_from_cache` reports absent exactly for a missing
cache file or one that fails to deserialize (every exception is caught, so
nothing escapes into ingest), and it returns every deserializable entry
as-is, without validating that the chunk count equals the embedding
count. -/
theorem c1_load_returns_any_deserializable_entry :
    (∀ f : CacheFile, loadFromCache f = none ↔ f = .absent ∨ f = .corrupt)
    ∧ (∀ d : CacheData, loadFromCache (.entry d)
        = some { chunks := d.chunks, chunk_metadata := d.metadata,
                 vector_store := d.embeddings }) := by
  constructor
  · intro f; cases f <;> simp [loadFromCache]
  · intro d; rfl

/-- C2 (counterexample): ingesting two files whose extracted texts each
retain one chunk yields the combined chunk-id list `[0, 0]` — the second
file restarts at 0 instead of continuing at 1. -/
theorem c2_counterexample :
    (processDocumentsChunks [("a.pdf", List.replicate 100 'a'),
        ("b.pdf", List.replicate 100 'a')]).map Chunk.chunk_id = [0, 0]
    ∧ ¬ seqIds (processDocumentsChunks [("a.pdf", List.replicate 100 'a'),
        ("b.pdf", List.replicate 100 'a')]) := by
  constructor
  · decide
  · unfold seqIds; decide

lemma processFold_eq_flatten :
    ∀ (files : List (String × List Char)) (acc : List Chunk),
      files.foldl
        (fun all_chunks file =>
          if strip file.2 = [] then all_chunks
          else all_chunks ++ chunkText 500 50 file.2 file.1) acc
      = acc ++ (files.map (fun file =>
          if strip file.2 = [] then []
          else chunkText 500 50 file.2 file.1)).flatten := by
  intro files
  induction files with
  | nil => intro acc; simp
  | cons file rest ih =>
    intro acc
    simp only [List.foldl_cons, List.map_cons, List.flatten_cons]
    by_cases h : strip file.2 = []
    · rw [if_pos h, if_pos h, ih acc]
      simp
    · rw [if_neg h, if_neg h, ih]
      simp

/-- C2 (amended): chunk ids are assigned sequentially over the retained
chunks of each single file, restarting at 0 for every file; the combined
list of a document set is the concatenation of the per-file lists, so ids
are not contiguous across files. -/
theorem c2_ids_restart_per_file :
    (∀ (cs co : Nat) (text : List Char) (f : String),
        seqIds (chunkText cs co text f))
    ∧ (∀ files : List (String × List Char),
        processDocumentsChunks files
          = (files.map (fun file =>
              if strip file.2 = [] then []
              else chunkText 500 50 file.2 file.1)).flatten) := by
  constructor
  · intro cs co text f; exact chunkText_seqIds cs co text f
  · intro files
    have h := processFold_eq_flatten files []
    simpa [processDocumentsChunks] using h

lemma sumSq_nonneg (v : List ℝ) : 0 ≤ (v.map (fun x => x * x)).sum := by
  apply List.sum_nonneg
  intro x hx
  simp only [List.mem_map] at hx
  obtain ⟨y, _, rfl⟩ := hx
  exact mul_self_nonneg y

lemma l2norm_three_four : l2norm [3, 4] = 5 := by
  have hsum : (([3, 4] : List ℝ).map (fun x => x * x)).sum = 25 := by
    norm_num
  unfold l2norm
  rw [hsum, show (25 : ℝ) = 5 ^ 2 by norm_num]
  exact Real.sqrt_sq (by norm_num)

/-- C3 (counterexample): for the raw embedding row `[3, 4]` (L2 norm 5),
what `process_documents` hands to `_save_to_cache` is not the raw row —
the array was reassigned to its normalized form before the save. -/
theorem c3_cached_not_raw :
    (buildAndCache [[3, 4]]).cached_embeddings ≠ [[3, 4]] := by
  simp only [buildAndCache, normalizeRows, List.map_cons, List.map_nil,
    l2norm_three_four]
  intro h
  norm_num at h

/-- C3 (amended): the embedding vectors persisted in the cache are the
normalized rows — whenever every raw row has nonzero norm, every cached
row has unit L2 norm, so it is the normalized form and not the raw
pre-normalization vector that is persisted. -/
theorem c3_cache_stores_unit_vectors (raw : List (List ℝ))
    (h : ∀ v ∈ raw, l2norm v ≠ 0) :
    ∀ w ∈ (buildAndCache raw).cached_embeddings, l2norm w = 1 := by
  intro w hw
  simp only [buildAndCache, normalizeRows, List.mem_map] at hw
  obtain ⟨v, hv, rfl⟩ := hw
  have hc : l2norm v ≠ 0 := h v hv
  have hS : 0 ≤ ((v.map (fun x => x * x)).sum) := sumSq_nonneg v
  have hcc : l2norm v * l2norm v = (v.map (fun x => x * x)).sum :=
    Real.mul_self_sqrt hS
  have hS0 : (v.map (fun x => x * x)).sum ≠ 0 := by
    intro h0
    exact hc (by unfold l2norm; rw [h0]; exact Real.sqrt_zero)
  set c := l2norm v with hcdef
  unfold l2norm
  rw [List.map_map]
  have hcomp : ((fun x => x * x) ∘ fun x => x / c)
      = fun x => x * x * (c * c)⁻¹ := by
    funext x
    simp only [Function.comp_apply]
    ring
  rw [hcomp, List.sum_map_mul_right, hcc, mul_inv_cancel₀ hS0,
    Real.sqrt_one]

/-- Witness for C3 at the raw row `[3, 4]`: the corresponding cached row
has unit L2 norm. -/
theorem c3_witness :
    l2norm (([3, 4] : List ℝ).map (fun x => x / l2norm [3, 4])) = 1 := by
  refine c3_cache_stores_unit_vectors [[3, 4]] ?_ _ ?_
  · intro v hv
    simp only [List.mem_singleton] at hv
    subst hv
    rw [l2norm_three_four]
    norm_num
  · simp [buildAndCache, normalizeRows]

/-- C9: with no similarity index built (`self.vector_store` still `None`,
as before any successful ingest), retrieval is caught to the empty list
and `query` returns the fixed no-relevant-information string; the answer
does not depend on the generation backend, which is therefore never
called. -/
theorem c9_query_before_ingest :
    ∀ (chunk_metadata : List Chunk) (nq : Option (List ℚ))
      (gen gen' : String → Except String String) (question : String),
      retrieveRelevantChunks chunk_metadata none nq 3 = []
      ∧ queryAnswer chunk_metadata none nq gen question = noInfoMsg
      ∧ queryAnswer chunk_metadata none nq gen question
          = queryAnswer chunk_metadata none nq gen' question := by
  intro md nq gen gen' question
  have h : retrieveRelevantChunks md none nq 3 = [] := by
    cases nq <;> rfl
  refine ⟨h, ?_, ?_⟩
  · simp [queryAnswer, h]
  · simp [queryAnswer, h]

/-- C6: `query` always returns a string (the model is a total function
into `String`; the generation backend raising is caught and turned into
the error-description string), and when retrieval yields no chunks it
returns the fixed no-relevant-information response with an answer
independent of the generation backend — the backend is not called. -/
theorem c6_query_never_raises :
    ∀ (chunk_metadata : List Chunk) (vector_store : Option (List (List ℚ)))
      (nq : Option (List ℚ)) (gen gen' : String → Except String String)
      (question e : String),
      (retrieveRelevantChunks chunk_metadata vector_store nq 3 = [] →
        queryAnswer chunk_metadata vector_store nq gen question = noInfoMsg
        ∧ queryAnswer chunk_metadata vector_store nq gen question
            = queryAnswer chunk_metadata vector_store nq gen' question)
      ∧ (queryAnswer chunk_metadata vector_store nq
            (fun _ => Except.error e) question = noInfoMsg
         ∨ queryAnswer chunk_metadata vector_store nq
            (fun _ => Except.error e) question
              = "❌ Error generating answer: " ++ e) := by
  intro md vs nq gen gen' question e
  constructor
  · intro h
    constructor <;> simp [queryAnswer, h]
  · by_cases h : retrieveRelevantChunks md vs nq 3 = []
    · left
      simp [queryAnswer, h]
    · right
      simp [queryAnswer, h]

/-- Witness for C6 on the empty state and on an erroring backend. -/
theorem c6_witness :
    queryAnswer [] none none (fun _ => Except.ok "ans") "q?" = noInfoMsg
    ∧ (queryAnswer [] none none (fun _ => Except.error "boom") "q?" = noInfoMsg
       ∨ queryAnswer [] none none (fun _ => Except.error "boom") "q?"
           = "❌ Error generating answer: " ++ "boom") :=
  ⟨((c6_query_never_raises [] none none (fun _ => Except.ok "ans")
      (fun _ => Except.ok "ans") "q?" "boom").1 rfl).1,
   (c6_query_never_raises [] none none (fun _ => Except.ok "ans")
      (fun _ => Except.ok "ans") "q?" "boom").2⟩

lemma strip_length_le (l : List Char) : (strip l).length ≤ l.length := by
  unfold strip
  rw [List.length_reverse]
  calc ((l.dropWhile Char.isWhitespace).reverse.dropWhile
          Char.isWhitespace).length
      ≤ (l.dropWhile Char.isWhitespace).reverse.length :=
        (List.dropWhile_sublist Char.isWhitespace).length_le
    _ = (l.dropWhile Char.isWhitespace).length := List.length_reverse _
    _ ≤ l.length := (List.dropWhile_sublist Char.isWhitespace).length_le

lemma windowStarts_getD (step n i : Nat)
    (h : i < (windowStarts step n).length) :
    (windowStarts step n).getD i 0 = i * step := by
  rw [List.getD_eq_getElem _ _ h]
  unfold windowStarts
  simp

/-- Consecutive raw windows always start `step` positions apart. -/
lemma windowStarts_adjacent (step n i : Nat)
    (h : i + 1 < (windowStarts step n).length) :
    (windowStarts step n).getD (i + 1) 0
      = (windowStarts step n).getD i 0 + step := by
  rw [windowStarts_getD step n (i + 1) h,
    windowStarts_getD step n i (by omega)]
  ring

set_option maxRecDepth 100000 in
/-- C7 (counterexample): on the 1400-character text made of 450 letters,
500 spaces and 450 letters, the retained window starts are 0, 900 and
1350 — the all-whitespace window at 450 is dropped — so the retained
chunks with ids 0 and 1 have windows 900 positions apart and their
overlap regions do not coincide: the claimed invariant fails when an
intervening raw window was dropped. -/
theorem c7_counterexample :
    retainedStarts 500 50 (List.replicate 450 'a' ++ List.replicate 500 ' '
        ++ List.replicate 450 'a') = [0, 900, 1350]
    ∧ ¬ overlapHolds 500 50 (List.replicate 450 'a' ++ List.replicate 500 ' '
        ++ List.replicate 450 'a') := by
  constructor
  · decide
  · unfold overlapHolds
    decide

/-- C7 (amended): the overlap invariant is a fact about consecutive raw
windows — adjacent raw window starts always differ by exactly
`chunk_size - chunk_overlap` positions — and therefore holds for adjacent
retained chunks whenever no intervening raw window was dropped, in
particular whenever every raw window passes the retention test. -/
theorem c7_overlap_for_consecutive_windows :
    (∀ (step n i : Nat), i + 1 < (windowStarts step n).length →
        (windowStarts step n).getD (i + 1) 0
          = (windowStarts step n).getD i 0 + step)
    ∧ (∀ (cs co : Nat) (text : List Char),
        (∀ s ∈ windowStarts (cs - co) text.length, keepWindow cs text s) →
        overlapHolds cs co text) := by
  constructor
  · exact windowStarts_adjacent
  · intro cs co text hall
    have hfil : retainedStarts cs co text
        = windowStarts (cs - co) text.length := by
      unfold retainedStarts
      exact List.filter_eq_self.2 hall
    intro i hi
    rw [hfil] at hi ⊢
    exact windowStarts_adjacent (cs - co) text.length i (by omega)

set_option maxRecDepth 100000 in
/-- Witness for C7 on a 900-letter text, where both raw windows are
retained and the adjacent retained starts differ by 450. -/
theorem c7_witness :
    (windowStarts 450 900).getD 1 0 = (windowStarts 450 900).getD 0 0 + 450
    ∧ overlapHolds 500 50 (List.replicate 900 'a') :=
  ⟨c7_overlap_for_consecutive_windows.1 450 900 0 (by decide),
   c7_overlap_for_consecutive_windows.2 500 50 (List.replicate 900 'a')
    (by decide)⟩

/-- C8: with the defaults `chunk_size = 500`, `overlap = 50` and minimum
trimmed length 50 — a 1200-character text has raw window starts 0, 450 and
900, and when every window passes the retention test the result is
exactly the three chunks with ids 0, 1, 2; a 480-character text whose
first window passes the retention test yields exactly one retained chunk
(its second raw window holds at most 30 characters and is always
dropped). -/
theorem c8_default_chunk_geometry :
    (∀ text : List Char, text.length = 1200 →
        windowStarts (500 - 50) text.length = [0, 450, 900])
    ∧ (∀ (text : List Char) (f : String), text.length = 1200 →
        (∀ s ∈ windowStarts (500 - 50) text.length, keepWindow 500 text s) →
        (chunkText 500 50 text f).map Chunk.chunk_id = [0, 1, 2])
    ∧ (∀ (text : List Char) (f : String), text.length = 480 →
        keepWindow 500 text 0 →
        (chunkText 500 50 text f).length = 1) := by
  refine ⟨?_, ?_, ?_⟩
  · intro text h
    rw [h]
    decide
  · intro text f h hall
    have hw : windowStarts (500 - 50) text.length = [0, 450, 900] := by
      rw [h]
      decide
    rw [hw] at hall
    have hlen : (chunkText 500 50 text f).length = 3 := by
      rw [chunkText_length, hw]
      rw [show ([0, 450, 900] : List Nat).countP (keepWindow 500 text)
            = ([0, 450, 900] : List Nat).length from
          List.countP_eq_length.2 hall]
      rfl
    have hseq := chunkText_seqIds 500 50 text f
    unfold seqIds at hseq
    rw [hseq, hlen]
    rfl
  · intro text f h hk
    have hw : windowStarts (500 - 50) text.length = [0, 450] := by
      rw [h]
      decide
    have hwin : (window 500 text 450).length ≤ 30 := by
      unfold window
      rw [List.length_take, List.length_drop, h]
      omega
    have h450 : keepWindow 500 text 450 = false := by
      unfold keepWindow
      have hs : (strip (window 500 text 450)).length < 50 :=
        lt_of_le_of_lt (le_trans (strip_length_le _) hwin) (by norm_num)
      simp [hs]
    rw [chunkText_length, hw, List.countP_cons, List.countP_cons,
      List.countP_nil]
    simp [hk, h450]

set_option maxRecDepth 100000 in
/-- Witness for C8 on concrete all-letter texts of lengths 1200 and
480. -/
theorem c8_witness :
    windowStarts (500 - 50) (List.replicate 1200 'a').length = [0, 450, 900]
    ∧ (chunkText 500 50 (List.replicate 1200 'a') "doc.pdf").map Chunk.chunk_id
        = [0, 1, 2]
    ∧ (chunkText 500 50 (List.replicate 480 'a') "doc.pdf").length = 1 :=
  ⟨c8_default_chunk_geometry.1 (List.replicate 1200 'a') (by simp),
   c8_default_chunk_geometry.2.1 (List.replicate 1200 'a') "doc.pdf"
      (by simp) (by decide),
   c8_default_chunk_geometry.2.2 (List.replicate 480 'a') "doc.pdf"
      (by simp) (by decide)⟩

lemma searchLE_trans :
    ∀ a b c : Nat × ℚ, searchLE a b → searchLE b c → searchLE a c := by
  intro a b c hab hbc
  simp only [searchLE, Bool.or_eq_true, Bool.and_eq_true,
    decide_eq_true_eq] at *
  rcases hab with h1 | ⟨h1, h2⟩
  · rcases hbc with h3 | ⟨h3, _⟩
    · exact Or.inl (lt_trans h3 h1)
    · exact Or.inl (h3 ▸ h1)
  · rcases hbc with h3 | ⟨h3, h4⟩
    · exact Or.inl (by rw [h1]; exact h3)
    · exact Or.inr ⟨h1.trans h3, le_trans h2 h4⟩

lemma searchLE_total : ∀ a b : Nat × ℚ, searchLE a b || searchLE b a := by
  intro a b
  simp only [searchLE, Bool.or_eq_true, Bool.and_eq_true,
    decide_eq_true_eq]
  rcases lt_trichotomy a.2 b.2 with h | h | h
  · exact Or.inr (Or.inl h)
  · rcases Nat.le_total a.1 b.1 with h2 | h2
    · exact Or.inl (Or.inr ⟨h, h2⟩)
    · exact Or.inr (Or.inr ⟨h.symm, h2⟩)
  · exact Or.inl (Or.inl h)

lemma searchIndex_scores_map_fst (stored : List (List ℚ)) (q : List ℚ) :
    ((List.range stored.length).map
        (fun i => (i, dot q (stored.getD i [])))).map Prod.fst
      = List.range stored.length := by
  rw [List.map_map]
  rw [show (Prod.fst ∘ fun i => (i, dot q (stored.getD i []))) = id from rfl]
  exact List.map_id _

/-- C5: for every stored vector list and requested `k`, search returns
exactly `min k n` results; every result refers to a valid stored position
below `n`; the results are ordered by strictly descending score with ties
broken by strictly increasing position index; and the empty index returns
the empty sequence. -/
theorem c5_search_contract :
    ∀ (stored : List (List ℚ)) (q : List ℚ) (k : Nat),
      (searchIndex stored q k).length = min k stored.length
      ∧ (∀ p ∈ searchIndex stored q k, p.1 < stored.length)
      ∧ (searchIndex stored q k).Pairwise
          (fun a b => b.2 < a.2 ∨ (a.2 = b.2 ∧ a.1 < b.1))
      ∧ searchIndex [] q k = [] := by
  intro stored q k
  refine ⟨?_, ?_, ?_, ?_⟩
  · unfold searchIndex
    rw [List.length_take, List.length_mergeSort, List.length_map,
      List.length_range]
  · intro p hp
    unfold searchIndex at hp
    have h1 := List.mem_of_mem_take hp
    rw [List.mem_mergeSort] at h1
    simp only [List.mem_map, List.mem_range] at h1
    obtain ⟨i, hi, rfl⟩ := h1
    exact hi
  · unfold searchIndex
    apply List.Pairwise.sublist (List.take_sublist _ _)
    have hsorted :
        (((List.range stored.length).map
            (fun i => (i, dot q (stored.getD i [])))).mergeSort
              searchLE).Pairwise (fun a b => searchLE a b) :=
      List.sorted_mergeSort searchLE_trans searchLE_total _
    have hnodup :
        ((((List.range stored.length).map
            (fun i => (i, dot q (stored.getD i [])))).mergeSort
              searchLE).map Prod.fst).Nodup := by
      have hperm :=
        (List.mergeSort_perm ((List.range stored.length).map
          (fun i => (i, dot q (stored.getD i [])))) searchLE).map Prod.fst
      rw [hperm.nodup_iff, searchIndex_scores_map_fst]
      exact List.nodup_range _
    have hpne :
        (((List.range stored.length).map
            (fun i => (i, dot q (stored.getD i [])))).mergeSort
              searchLE).Pairwise (fun a b => a.1 ≠ b.1) := by
      rw [List.Nodup, List.pairwise_map] at hnodup
      exact hnodup
    refine (hsorted.and hpne).imp ?_
    intro a b hab
    obtain ⟨h1, h2⟩ := hab
    simp only [searchLE, Bool.or_eq_true, Bool.and_eq_true,
      decide_eq_true_eq] at h1
    rcases h1 with h1 | ⟨heq, hle⟩
    · exact Or.inl h1
    · exact Or.inr ⟨heq, lt_of_le_of_ne hle h2⟩
  · simp [searchIndex]

/-- Witness for C5 on the two-vector index from the spec's similarity
example: searching `[[1, 0], [0, 1]]` with `[1, 0]` and `k = 3` returns
`min 3 2` hits, and the hit `(0, 1)` refers to a position below 2. -/
theorem c5_witness :
    (searchIndex [[1, 0], [0, 1]] [1, 0] 3).length = min 3 2
    ∧ (0 : Nat) < 2 :=
  ⟨(c5_search_contract [[1, 0], [0, 1]] [1, 0] 3).1,
   (c5_search_contract [[1, 0], [0, 1]] [1, 0] 3).2.1 (0, 1) (by
    unfold searchIndex
    rw [List.take_of_length_le]
    · rw [List.mem_mergeSort]
      refine List.mem_map.2 ⟨0, ?_, ?_⟩
      · decide
      · norm_num [dot]
    · rw [List.length_mergeSort]
      decide)⟩

end RAG
